import Mathlib

/-!
Shallow embedding of `src/main.rs` of the peek process-sampling tool, and
theorems settling the specification's claims about it.

The sampling loop of `Peek::run` is embedded as a function over a trace of
per-iteration environments (pending channel messages, metrics query result);
`main`, `Peek::output`, `Program::new` and `Program::run` are embedded on
top of it, with the observable side effects recorded as an explicit list.
-/

namespace Peek

/-- Metrics read from the sysinfo process entry in `Peek::run`:
`name`, `cpu_usage` (an `f32`, modelled as a rational), `memory`,
`virtual_memory`, `disk_usage().total_read_bytes`,
`disk_usage().total_written_bytes`. -/
structure ProcMetrics where
  name : String
  cpu_usage : ℚ
  memory : ℕ
  virtual_memory : ℕ
  total_read_bytes : ℕ
  total_written_bytes : ℕ
deriving DecidableEq

/-- One loop iteration's environment: whether the child's exit status is
pending on the `finished_running` channel at this iteration's check, how
many Ctrl-C messages are pending on the `crtl_c_interupt` channel at this
iteration's check, and what `system.process(pid)` would return after
`refresh_processes` (`none` means the process is gone). -/
structure IterInput where
  exitArrival : Bool
  interruptArrivals : ℕ
  metrics : Option ProcMetrics
deriving DecidableEq

/-- The `Samples` struct of the source (one record per poll), fields in
declaration order. `uuid` is the opaque run identifier (`Uuid` modelled as
a number); `sample` is the `u64` sequence counter, modelled as `ℕ`: it
increments once per 200 ms poll, so `u64` overflow is unreachable in a
run. -/
structure Samples where
  uuid : ℕ
  sample : ℕ
  pid : ℕ
  name : String
  cpu : ℚ
  mem : ℕ
  virt_mem : ℕ
  disk_read : ℕ
  disk_write : ℕ
deriving DecidableEq

/-- Observable side effects of the program, in program order. `kill` never
occurs in the embedding because the source never calls it; the constructor
exists so that its absence is a statable fact. -/
inductive Eff
  | setCtrlCHandler
  | spawnThread
  | refreshProcesses
  | refreshCpu
  | queryProcess (pid : ℕ)
  | sleep
  | kill (pid : ℕ)
  | createFile (path : String)
  | writeFile
  | printStdout
deriving DecidableEq

/-- Which arm of the break test fired; the `||` in the source checks the
exit channel first, so when both are pending the exit arm is recorded. -/
inductive Cause
  | exitObserved
  | interruptObserved
deriving DecidableEq

/-- How the loop of `Peek::run` ended: `stopped` is the `break`;
`disappeared` is the early error return built from the context string
describing a missing process; `ranOut` means the supplied trace ended with
the loop still running (no real execution ends this way: the loop only
leaves by `break` or by that error). -/
inductive LoopOutcome
  | stopped (c : Cause)
  | disappeared
  | ranOut
deriving DecidableEq

/-- Result of the loop: the sample buffer (`self.samples`), the way the
loop ended, and the effects it performed. -/
structure LoopRes where
  samples : List Samples
  outcome : LoopOutcome
  effs : List Eff
deriving DecidableEq

/-- The sample pushed at counter value `k`: mirrors the struct literal in
`Peek::run`, with `cpu` being `process.cpu_usage()` divided by `threads`. -/
def mkSample (u p t k : ℕ) (m : ProcMetrics) : Samples :=
  ⟨u, k, p, m.name, m.cpu_usage / (t : ℚ), m.memory, m.virtual_memory,
    m.total_read_bytes, m.total_written_bytes⟩

/-- The loop of `Peek::run`, consuming one `IterInput` per iteration, in
source order: first the break test (exit `try_recv` short-circuit-or
interrupt `try_recv`), then `refresh_processes` and the
`system.process(pid)` query (`None` makes `run` return the error), then the
push of the new sample and the counter increment, then the 200 ms sleep. -/
def peekLoop (u p t : ℕ) : ℕ → List Samples → List IterInput → LoopRes
  | _, acc, [] => ⟨acc, .ranOut, []⟩
  | k, acc, i :: rest =>
    if i.exitArrival then ⟨acc, .stopped .exitObserved, []⟩
    else if 0 < i.interruptArrivals then ⟨acc, .stopped .interruptObserved, []⟩
    else
      match i.metrics with
      | none => ⟨acc, .disappeared, [.refreshProcesses, .queryProcess p]⟩
      | some m =>
        let r := peekLoop u p t (k + 1) (acc ++ [mkSample u p t k m]) rest
        ⟨r.samples, r.outcome,
          .refreshProcesses :: .queryProcess p :: .sleep :: r.effs⟩

/-- The `Program` struct: first whitespace token of the program string and
the remaining tokens. -/
structure Program where
  command : String
  args : List String
deriving DecidableEq

/-- Rust's `char::is_whitespace`: the Unicode White_Space property. Its
members are U+0009..U+000D, U+0020, U+0085, U+00A0, U+1680,
U+2000..U+200A, U+2028, U+2029, U+202F, U+205F and U+3000 (note this is
wider than Lean's own whitespace predicate, which has only space, tab,
carriage return and line feed). -/
def isRustWhitespace (c : Char) : Bool :=
  (0x09 ≤ c.toNat && c.toNat ≤ 0x0D) || c.toNat == 0x20 ||
    c.toNat == 0x85 || c.toNat == 0xA0 || c.toNat == 0x1680 ||
    (0x2000 ≤ c.toNat && c.toNat ≤ 0x200A) || c.toNat == 0x2028 ||
    c.toNat == 0x2029 || c.toNat == 0x202F || c.toNat == 0x205F ||
    c.toNat == 0x3000

/-- Accumulator pass of Rust's `split_whitespace`: split on Unicode
White_Space characters, yielding no empty tokens. -/
def splitWSGo : List Char → List Char → List (List Char)
  | [], cur => if cur = [] then [] else [cur.reverse]
  | c :: cs, cur =>
    if isRustWhitespace c then
      if cur = [] then splitWSGo cs [] else cur.reverse :: splitWSGo cs []
    else splitWSGo cs (c :: cur)

/-- Rust's `split_whitespace`, collected to a list. -/
def splitWS (cs : List Char) : List (List Char) :=
  splitWSGo cs []

/-- Outcome of `Program::new`: the source indexes `command[0]` on the
vector of whitespace tokens, which panics when there is no token; it never
returns an error value. -/
inductive NewRes
  | panicIndexOutOfBounds
  | ok (p : Program)
deriving DecidableEq

/-- `Program::new`, on the `program` field of the parsed command line:
split on whitespace, take token 0 as the command (panicking when absent)
and the rest as arguments. -/
def Program.new (program : String) : NewRes :=
  match splitWS program.data with
  | [] => .panicIndexOutOfBounds
  | w :: ws => .ok ⟨String.mk w, ws.map String.mk⟩

/-- What the operating system does with spawn attempts: `spawn cmd args` is
`some pid` exactly when a `Command` for `cmd` with these arguments starts,
and `joinCwd cmd` is the current working directory joined with `cmd`. -/
structure OsEnv where
  spawn : String → List String → Option ℕ
  joinCwd : String → String

/-- The `RunningProgram` struct, minus the exit-status channel, which the
loop embedding reads through its iteration trace. -/
structure RunningProgram where
  pid : ℕ
deriving DecidableEq

/-- Outcome of `Program::run`: either a pid was received from the spawning
thread, or the second spawn attempt's `unwrap` panicked in that thread and
therefore the `recv().unwrap()` of the pid in the calling thread panicked
too, aborting before the loop starts. -/
inductive SpawnOutcome
  | ok (rp : RunningProgram)
  | panicked
deriving DecidableEq

/-- `Program::run`: try the bare command first, then the command joined
onto the current working directory; when both attempts fail the process
aborts by panic (there is no error return on this path). -/
def Program.run (env : OsEnv) (p : Program) : SpawnOutcome :=
  match env.spawn p.command p.args with
  | some pid => .ok ⟨pid⟩
  | none =>
    match env.spawn (env.joinCwd p.command) p.args with
    | some pid => .ok ⟨pid⟩
    | none => .panicked

/-- The `Format` value enum of the command line. -/
inductive Format
  | csv
  | json
deriving DecidableEq

/-- The `Output` value enum of the command line. -/
inductive Output
  | file
  | stdout
deriving DecidableEq

/-- The `Display` implementation for `Format`. -/
def formatStr : Format → String
  | .csv => "csv"
  | .json => "json"

/-- The command-line inputs the embedding needs (clap parsing itself is out
of scope per the specification). -/
structure Cli where
  program : String
  path : Option String
  output : Output
  format : Format

/-- Abstract JSON tree: enough structure to state what the serializer
emits for the sample buffer. -/
inductive JsonValue
  | str (s : String)
  | nat (n : ℕ)
  | rat (q : ℚ)
  | arr (items : List JsonValue)
  | obj (fields : List (String × JsonValue))

/-- Serialization of one `Samples` record: the derived serializer emits the
struct fields in declaration order. -/
def sampleToJson (s : Samples) : JsonValue :=
  .obj [("uuid", .nat s.uuid), ("sample", .nat s.sample), ("pid", .nat s.pid),
    ("name", .str s.name), ("cpu", .rat s.cpu), ("mem", .nat s.mem),
    ("virt_mem", .nat s.virt_mem), ("disk_read", .nat s.disk_read),
    ("disk_write", .nat s.disk_write)]

/-- `to_json` in `Peek::output`: serializing the vector of samples yields
the array of the records in buffer order. -/
def to_json (data : List Samples) : JsonValue :=
  .arr (data.map sampleToJson)

/-- Result of `Peek::output`: `wrote` lists the sink effects and the
emitted artifact; `panickedTodo` is the `todo` panic of `to_csv` (panic
message "not yet implemented"), reached before any file is created. -/
inductive OutRes
  | wrote (effs : List Eff) (art : JsonValue)
  | panickedTodo

/-- `Peek::output`: the data is produced first, so the CSV path panics
before `File::create` runs; then the data is written to the selected sink.
I/O failures of the file sink are outside the model (no claim concerns
them). -/
def peekOutput (fmt : Format) (out : Output) (path : String)
    (samples : List Samples) : OutRes :=
  match fmt with
  | .csv => .panickedTodo
  | .json =>
    let data := to_json samples
    match out with
    | .file => .wrote [.createFile path, .writeFile] data
    | .stdout => .wrote [.printStdout] data

/-- Final outcome of `main`: clean exit after output, error return from
`run` propagated by the question-mark operator, or one of the panics. -/
inductive MainOutcome
  | okOutput
  | errRun
  | panickedIndex
  | panickedSpawn
  | panickedTodo
  | ranOut
deriving DecidableEq

/-- Observable result of `main`: the outcome, the effect list in program
order, the content of the sample buffer when `main` ended (`buffered`),
the artifact handed to the sink (if any), and which break arm stopped the
loop (if it stopped). -/
structure MainRes where
  outcome : MainOutcome
  effs : List Eff
  buffered : List Samples
  artifact : Option JsonValue
  stopCause : Option Cause

/-- `main`: `Peek::new` installs the Ctrl-C handler and builds `Program`
(panicking on an empty program string), `Peek::run` spawns the target,
reads the logical CPU count `t` once, and runs the loop; only when `run`
returns `Ok` does `main` reach `peek.output()` - a `run` error propagates
and the collected samples are never emitted. `u` is the run's fresh uuid. -/
def mainModel (env : OsEnv) (u t : ℕ) (cli : Cli) (trace : List IterInput) :
    MainRes :=
  match Program.new cli.program with
  | .panicIndexOutOfBounds =>
    ⟨.panickedIndex, [.setCtrlCHandler], [], none, none⟩
  | .ok prog =>
    let outputPath := cli.path.getD (env.joinCwd ("peek." ++ formatStr cli.format))
    match Program.run env prog with
    | .panicked =>
      ⟨.panickedSpawn, [.setCtrlCHandler, .spawnThread], [], none, none⟩
    | .ok rp =>
      let l := peekLoop u rp.pid t 0 [] trace
      let runEffs := Eff.setCtrlCHandler :: Eff.spawnThread ::
        Eff.refreshProcesses :: Eff.refreshCpu :: l.effs
      match l.outcome with
      | .ranOut => ⟨.ranOut, runEffs, l.samples, none, none⟩
      | .disappeared => ⟨.errRun, runEffs, l.samples, none, none⟩
      | .stopped c =>
        match peekOutput cli.format cli.output outputPath l.samples with
        | .panickedTodo => ⟨.panickedTodo, runEffs, l.samples, none, some c⟩
        | .wrote oeffs art =>
          ⟨.okOutput, runEffs ++ oeffs, l.samples, some art, some c⟩

/-- Classification of an iteration input by the branch the loop takes. -/
inductive IterSig
  | sigExit
  | sigInterrupt
  | sigGone
  | sigSample (m : ProcMetrics)
deriving DecidableEq

/-- The branch the loop takes on iteration input `i`. -/
def sigOf (i : IterInput) : IterSig :=
  if i.exitArrival then .sigExit
  else if 0 < i.interruptArrivals then .sigInterrupt
  else
    match i.metrics with
    | none => .sigGone
    | some m => .sigSample m

/-- Metrics actually consumed before the loop leaves its running state. -/
def takenMetrics : List IterInput → List ProcMetrics
  | [] => []
  | i :: rest =>
    match sigOf i with
    | .sigSample m => m :: takenMetrics rest
    | _ => []

/-- How a trace makes the loop end. -/
def traceFate : List IterInput → LoopOutcome
  | [] => .ranOut
  | i :: rest =>
    match sigOf i with
    | .sigExit => .stopped .exitObserved
    | .sigInterrupt => .stopped .interruptObserved
    | .sigGone => .disappeared
    | .sigSample _ => traceFate rest

/-- The samples the loop builds from a list of consumed metrics, starting
at counter value `k`. -/
def expectedSamples (u p t : ℕ) : ℕ → List ProcMetrics → List Samples
  | _, [] => []
  | k, m :: ms => mkSample u p t k m :: expectedSamples u p t (k + 1) ms

/-- The effects the loop performs on a trace. -/
def expectedEffs (p : ℕ) : List IterInput → List Eff
  | [] => []
  | i :: rest =>
    match sigOf i with
    | .sigExit => []
    | .sigInterrupt => []
    | .sigGone => [.refreshProcesses, .queryProcess p]
    | .sigSample _ =>
      .refreshProcesses :: .queryProcess p :: .sleep :: expectedEffs p rest

/-- An iteration on which the loop keeps running: no pending exit, no
pending interrupt, metrics present. -/
def runsOn (i : IterInput) : Bool :=
  !i.exitArrival && i.interruptArrivals == 0 && i.metrics.isSome

/-- The effects that can appear after the initial handler installation in
a run of `main`: everything the program can do except installing the
handler again or killing a process. -/
def tailEff (e : Eff) : Prop :=
  e = .spawnThread ∨ e = .refreshProcesses ∨ e = .refreshCpu ∨
    (∃ q, e = .queryProcess q) ∨ e = .sleep ∨ (∃ s, e = .createFile s) ∨
    e = .writeFile ∨ e = .printStdout

/-- Modelled from the spec's per-iteration step order (claim C3): exit
check first; then the metrics query; then the append of the sample; then
the interrupt check - so an iteration in which the interrupt is first
observed still contributes its sample; then the sleep. -/
def specLoop (u p t : ℕ) : ℕ → List Samples → List IterInput → LoopRes
  | _, acc, [] => ⟨acc, .ranOut, []⟩
  | k, acc, i :: rest =>
    if i.exitArrival then ⟨acc, .stopped .exitObserved, []⟩
    else
      match i.metrics with
      | none => ⟨acc, .disappeared, [.refreshProcesses, .queryProcess p]⟩
      | some m =>
        let acc2 := acc ++ [mkSample u p t k m]
        if 0 < i.interruptArrivals then
          ⟨acc2, .stopped .interruptObserved, [.refreshProcesses, .queryProcess p]⟩
        else
          let r := specLoop u p t (k + 1) acc2 rest
          ⟨r.samples, r.outcome,
            .refreshProcesses :: .queryProcess p :: .sleep :: r.effs⟩

/-- Modelled from the spec (claim C1): whenever the run ends with the
process-disappeared error, the samples collected before that point are
still handed to the sink and form the final output artifact. -/
def specC1 : Prop :=
  ∀ (env : OsEnv) (u t : ℕ) (cli : Cli) (trace : List IterInput),
    (mainModel env u t cli trace).outcome = .errRun →
    (mainModel env u t cli trace).artifact =
      some (to_json (mainModel env u t cli trace).buffered)

/-- Modelled from the spec (claim C2): whenever the loop is stopped by the
interrupt, a kill is issued on the target (every target of this program is
spawned by it, so the spec's ownership condition always holds). -/
def specC2 : Prop :=
  ∀ (env : OsEnv) (u t : ℕ) (cli : Cli) (trace : List IterInput),
    (mainModel env u t cli trace).stopCause = some .interruptObserved →
    ∃ pid, Eff.kill pid ∈ (mainModel env u t cli trace).effs

/-- Modelled from the spec (claim C3): the code's loop is extensionally the
spec-ordered loop on samples and outcome. -/
def specC3 : Prop :=
  ∀ (u p t : ℕ) (trace : List IterInput),
    (peekLoop u p t 0 [] trace).samples = (specLoop u p t 0 [] trace).samples ∧
    (peekLoop u p t 0 [] trace).outcome = (specLoop u p t 0 [] trace).outcome

/-- Modelled from the spec (claim C7): when both resolution attempts fail,
the spawn failure is a reported error - the run does not abort by panic. -/
def specC7 : Prop :=
  ∀ (env : OsEnv) (p : Program),
    env.spawn p.command p.args = none →
    env.spawn (env.joinCwd p.command) p.args = none →
    Program.run env p ≠ .panicked

/-- One step of the loop, phrased through the branch classification. -/
theorem peekLoop_cons (u p t k : ℕ) (acc : List Samples) (i : IterInput)
    (rest : List IterInput) :
    peekLoop u p t k acc (i :: rest) =
      match sigOf i with
      | .sigExit => ⟨acc, .stopped .exitObserved, []⟩
      | .sigInterrupt => ⟨acc, .stopped .interruptObserved, []⟩
      | .sigGone => ⟨acc, .disappeared, [.refreshProcesses, .queryProcess p]⟩
      | .sigSample m =>
        let r := peekLoop u p t (k + 1) (acc ++ [mkSample u p t k m]) rest
        ⟨r.samples, r.outcome,
          .refreshProcesses :: .queryProcess p :: .sleep :: r.effs⟩ := by
  by_cases he : i.exitArrival = true
  · simp [peekLoop, sigOf, he]
  · by_cases hi : 0 < i.interruptArrivals
    · simp [peekLoop, sigOf, he, hi]
    · cases hm : i.metrics with
      | none => simp [peekLoop, sigOf, he, hi, hm]
      | some m => simp [peekLoop, sigOf, he, hi, hm]

/-- Full characterization of the loop on any trace, from any counter value
and buffer content. -/
theorem peekLoop_eq (u p t : ℕ) (trace : List IterInput) : ∀ (k : ℕ)
    (acc : List Samples),
    peekLoop u p t k acc trace =
      ⟨acc ++ expectedSamples u p t k (takenMetrics trace), traceFate trace,
        expectedEffs p trace⟩ := by
  induction trace with
  | nil =>
    intro k acc
    simp [peekLoop, takenMetrics, traceFate, expectedEffs, expectedSamples]
  | cons i rest ih =>
    intro k acc
    rw [peekLoop_cons]
    cases h : sigOf i with
    | sigExit =>
      simp [takenMetrics, traceFate, expectedEffs, expectedSamples, h]
    | sigInterrupt =>
      simp [takenMetrics, traceFate, expectedEffs, expectedSamples, h]
    | sigGone =>
      simp [takenMetrics, traceFate, expectedEffs, expectedSamples, h]
    | sigSample m =>
      simp only [takenMetrics, traceFate, expectedEffs, expectedSamples, h, ih]
      simp

theorem expectedSamples_length (u p t : ℕ) (ms : List ProcMetrics) :
    ∀ k, (expectedSamples u p t k ms).length = ms.length := by
  induction ms with
  | nil => intro k; simp [expectedSamples]
  | cons m ms ih => intro k; simp [expectedSamples, ih]

theorem expectedSamples_map_sample (u p t : ℕ) (ms : List ProcMetrics) :
    ∀ k, (expectedSamples u p t k ms).map (fun s => s.sample) =
      List.range' k ms.length := by
  induction ms with
  | nil => intro k; simp [expectedSamples]
  | cons m ms ih =>
    intro k
    simp [expectedSamples, mkSample, List.range'_succ, ih]

theorem expectedSamples_mem (u p t : ℕ) (ms : List ProcMetrics) :
    ∀ k s, s ∈ expectedSamples u p t k ms → s.uuid = u ∧ s.pid = p := by
  induction ms with
  | nil => intro k s h; simp [expectedSamples] at h
  | cons m ms ih =>
    intro k s h
    simp only [expectedSamples, List.mem_cons] at h
    cases h with
    | inl h => subst h; exact ⟨rfl, rfl⟩
    | inr h => exact ih (k + 1) s h

theorem expectedSamples_map_cpu (u p t : ℕ) (ms : List ProcMetrics) :
    ∀ k, (expectedSamples u p t k ms).map (fun s => s.cpu) =
      ms.map (fun m => m.cpu_usage / (t : ℚ)) := by
  induction ms with
  | nil => intro k; simp [expectedSamples]
  | cons m ms ih => intro k; simp [expectedSamples, mkSample, ih]

theorem expectedEffs_mem (p : ℕ) (trace : List IterInput) :
    ∀ e ∈ expectedEffs p trace,
      e = .refreshProcesses ∨ e = .queryProcess p ∨ e = .sleep := by
  induction trace with
  | nil => intro e h; simp [expectedEffs] at h
  | cons i rest ih =>
    intro e h
    cases hs : sigOf i <;> simp only [expectedEffs, hs, List.mem_cons,
      List.not_mem_nil] at h
    · rcases h with h | h | h
      · exact Or.inl h
      · exact Or.inr (Or.inl h)
      · exact absurd h not_false
    · rcases h with h | h | h | h
      · exact Or.inl h
      · exact Or.inr (Or.inl h)
      · exact Or.inr (Or.inr h)
      · exact ih e h

theorem expectedEffs_no_kill (p q : ℕ) (trace : List IterInput) :
    Eff.kill q ∉ expectedEffs p trace := by
  intro h
  rcases expectedEffs_mem p trace _ h with h | h | h <;> exact Eff.noConfusion h

theorem expectedEffs_no_handler (p : ℕ) (trace : List IterInput) :
    Eff.setCtrlCHandler ∉ expectedEffs p trace := by
  intro h
  rcases expectedEffs_mem p trace _ h with h | h | h <;> exact Eff.noConfusion h

theorem expectedEffs_no_createFile (p : ℕ) (s : String)
    (trace : List IterInput) : Eff.createFile s ∉ expectedEffs p trace := by
  intro h
  rcases expectedEffs_mem p trace _ h with h | h | h <;> exact Eff.noConfusion h

theorem expectedEffs_no_print (p : ℕ) (trace : List IterInput) :
    Eff.printStdout ∉ expectedEffs p trace := by
  intro h
  rcases expectedEffs_mem p trace _ h with h | h | h <;> exact Eff.noConfusion h

theorem splitWSGo_nil_of_ws : ∀ cs : List Char,
    (∀ c ∈ cs, isRustWhitespace c = true) → splitWSGo cs [] = [] := by
  intro cs
  induction cs with
  | nil => intro _; simp [splitWSGo]
  | cons c cs ih =>
    intro h
    have hc : isRustWhitespace c = true := h c (List.mem_cons_self c cs)
    have hrest : ∀ a ∈ cs, isRustWhitespace a = true :=
      fun a ha => h a (List.mem_cons_of_mem c ha)
    simp [splitWSGo, hc, ih hrest]

theorem splitWSGo_ne_nil : ∀ (cs cur : List Char), cur ≠ [] →
    splitWSGo cs cur ≠ [] := by
  intro cs
  induction cs with
  | nil => intro cur h; simp [splitWSGo, h]
  | cons c cs ih =>
    intro cur h
    by_cases hc : isRustWhitespace c = true
    · simp [splitWSGo, hc, h]
    · simpa [splitWSGo, hc] using ih (c :: cur) (List.cons_ne_nil c cur)

theorem splitWS_ne_nil : ∀ cs : List Char,
    (∃ c ∈ cs, ¬isRustWhitespace c = true) → splitWS cs ≠ [] := by
  intro cs
  induction cs with
  | nil => rintro ⟨c, hc, _⟩; exact absurd hc (List.not_mem_nil c)
  | cons c cs ih =>
    rintro ⟨a, ha, hna⟩
    rcases List.mem_cons.mp ha with h | h
    · subst h
      simpa [splitWS, splitWSGo, hna] using
        splitWSGo_ne_nil cs [a] (List.cons_ne_nil a [])
    · by_cases hc : isRustWhitespace c = true
      · simpa [splitWS, splitWSGo, hc] using ih ⟨a, h, hna⟩
      · simpa [splitWS, splitWSGo, hc] using
          splitWSGo_ne_nil cs [c] (List.cons_ne_nil c [])

theorem tailEff_ne_handler {e : Eff} (h : tailEff e) :
    e ≠ .setCtrlCHandler := by
  rcases h with h | h | h | ⟨q, h⟩ | h | ⟨s, h⟩ | h | h <;> subst h <;> simp

theorem tailEff_ne_kill {e : Eff} (h : tailEff e) (q : ℕ) : e ≠ .kill q := by
  rcases h with h | h | h | ⟨a, h⟩ | h | ⟨s, h⟩ | h | h <;> subst h <;> simp

theorem tailEff_expected (p : ℕ) (trace : List IterInput) :
    ∀ e ∈ expectedEffs p trace, tailEff e := by
  intro e h
  rcases expectedEffs_mem p trace e h with h | h | h
  · exact Or.inr (Or.inl h)
  · exact Or.inr (Or.inr (Or.inr (Or.inl ⟨p, h⟩)))
  · exact Or.inr (Or.inr (Or.inr (Or.inr (Or.inl h))))

/-- Every run of `main` performs the handler installation as its first
effect, and everything after it is an ordinary run effect (never another
handler installation, never a kill). -/
theorem mainModel_effs_mem (env : OsEnv) (u t : ℕ) (cli : Cli)
    (trace : List IterInput) :
    ∃ tl, (mainModel env u t cli trace).effs = Eff.setCtrlCHandler :: tl ∧
      ∀ e ∈ tl, tailEff e := by
  cases hP : Program.new cli.program with
  | panicIndexOutOfBounds =>
    refine ⟨[], by simp [mainModel, hP], by simp⟩
  | ok prog =>
    cases hR : Program.run env prog with
    | panicked =>
      refine ⟨[.spawnThread], by simp [mainModel, hP, hR], ?_⟩
      intro e he
      simp only [List.mem_singleton] at he
      subst he
      exact Or.inl rfl
    | ok rp =>
      have hl : peekLoop u rp.pid t 0 [] trace =
          ⟨expectedSamples u rp.pid t 0 (takenMetrics trace),
            traceFate trace, expectedEffs rp.pid trace⟩ := by
        simpa using peekLoop_eq u rp.pid t trace 0 []
      cases hF : traceFate trace with
      | ranOut =>
        have he : (mainModel env u t cli trace).effs =
            Eff.setCtrlCHandler :: Eff.spawnThread :: Eff.refreshProcesses ::
              Eff.refreshCpu :: expectedEffs rp.pid trace := by
          simp [mainModel, hP, hR, hl, hF]
        refine ⟨_, he, ?_⟩
        intro e he2
        rcases List.mem_cons.mp he2 with h | he2
        · exact Or.inl h
        rcases List.mem_cons.mp he2 with h | he2
        · exact Or.inr (Or.inl h)
        rcases List.mem_cons.mp he2 with h | he2
        · exact Or.inr (Or.inr (Or.inl h))
        · exact tailEff_expected rp.pid trace e he2
      | disappeared =>
        have he : (mainModel env u t cli trace).effs =
            Eff.setCtrlCHandler :: Eff.spawnThread :: Eff.refreshProcesses ::
              Eff.refreshCpu :: expectedEffs rp.pid trace := by
          simp [mainModel, hP, hR, hl, hF]
        refine ⟨_, he, ?_⟩
        intro e he2
        rcases List.mem_cons.mp he2 with h | he2
        · exact Or.inl h
        rcases List.mem_cons.mp he2 with h | he2
        · exact Or.inr (Or.inl h)
        rcases List.mem_cons.mp he2 with h | he2
        · exact Or.inr (Or.inr (Or.inl h))
        · exact tailEff_expected rp.pid trace e he2
      | stopped c =>
        cases hFmt : cli.format with
        | csv =>
          have he : (mainModel env u t cli trace).effs =
              Eff.setCtrlCHandler :: Eff.spawnThread :: Eff.refreshProcesses ::
                Eff.refreshCpu :: expectedEffs rp.pid trace := by
            simp [mainModel, hP, hR, hl, hF, hFmt, peekOutput]
          refine ⟨_, he, ?_⟩
          intro e he2
          rcases List.mem_cons.mp he2 with h | he2
          · exact Or.inl h
          rcases List.mem_cons.mp he2 with h | he2
          · exact Or.inr (Or.inl h)
          rcases List.mem_cons.mp he2 with h | he2
          · exact Or.inr (Or.inr (Or.inl h))
          · exact tailEff_expected rp.pid trace e he2
        | json =>
          cases hOut : cli.output with
          | file =>
            have he : (mainModel env u t cli trace).effs =
                Eff.setCtrlCHandler :: Eff.spawnThread ::
                  Eff.refreshProcesses :: Eff.refreshCpu ::
                  (expectedEffs rp.pid trace ++
                    [Eff.createFile (cli.path.getD (env.joinCwd
                      ("peek." ++ formatStr Format.json))), Eff.writeFile]) := by
              simp [mainModel, hP, hR, hl, hF, hFmt, hOut, peekOutput]
            refine ⟨_, he, ?_⟩
            intro e he2
            rcases List.mem_cons.mp he2 with h | he2
            · exact Or.inl h
            rcases List.mem_cons.mp he2 with h | he2
            · exact Or.inr (Or.inl h)
            rcases List.mem_cons.mp he2 with h | he2
            · exact Or.inr (Or.inr (Or.inl h))
            rcases List.mem_append.mp he2 with he2 | he2
            · exact tailEff_expected rp.pid trace e he2
            rcases List.mem_cons.mp he2 with h | he2
            · exact Or.inr (Or.inr (Or.inr (Or.inr (Or.inr (Or.inl ⟨_, h⟩)))))
            rcases List.mem_cons.mp he2 with h | he2
            · exact Or.inr (Or.inr (Or.inr (Or.inr (Or.inr (Or.inr (Or.inl h))))))
            · exact absurd he2 (List.not_mem_nil e)
          | stdout =>
            have he : (mainModel env u t cli trace).effs =
                Eff.setCtrlCHandler :: Eff.spawnThread ::
                  Eff.refreshProcesses :: Eff.refreshCpu ::
                  (expectedEffs rp.pid trace ++ [Eff.printStdout]) := by
              simp [mainModel, hP, hR, hl, hF, hFmt, hOut, peekOutput]
            refine ⟨_, he, ?_⟩
            intro e he2
            rcases List.mem_cons.mp he2 with h | he2
            · exact Or.inl h
            rcases List.mem_cons.mp he2 with h | he2
            · exact Or.inr (Or.inl h)
            rcases List.mem_cons.mp he2 with h | he2
            · exact Or.inr (Or.inr (Or.inl h))
            rcases List.mem_append.mp he2 with he2 | he2
            · exact tailEff_expected rp.pid trace e he2
            rcases List.mem_cons.mp he2 with h | he2
            · exact Or.inr (Or.inr (Or.inr (Or.inr (Or.inr (Or.inr (Or.inr h))))))
            · exact absurd he2 (List.not_mem_nil e)

theorem mainModel_no_kill (env : OsEnv) (u t : ℕ) (cli : Cli)
    (trace : List IterInput) (q : ℕ) :
    Eff.kill q ∉ (mainModel env u t cli trace).effs := by
  obtain ⟨tl, he, htl⟩ := mainModel_effs_mem env u t cli trace
  rw [he]
  intro hmem
  rcases List.mem_cons.mp hmem with h | h
  · exact Eff.noConfusion h
  · exact tailEff_ne_kill (htl _ h) q rfl

theorem mainModel_handler_once (env : OsEnv) (u t : ℕ) (cli : Cli)
    (trace : List IterInput) :
    (mainModel env u t cli trace).effs.head? = some .setCtrlCHandler ∧
    (mainModel env u t cli trace).effs.count .setCtrlCHandler = 1 := by
  obtain ⟨tl, he, htl⟩ := mainModel_effs_mem env u t cli trace
  rw [he]
  refine ⟨rfl, ?_⟩
  rw [List.count_cons_self]
  have : tl.count .setCtrlCHandler = 0 :=
    List.count_eq_zero.mpr (fun h => tailEff_ne_handler (htl _ h) rfl)
  omega

/-- C4: for every run - any run identifier `u`, process identifier `p`,
logical cpu count `t` and iteration trace - the sequence numbers of the
collected samples are exactly `0, 1, ..., n-1` in buffer order, and every
sample carries the run's identifier `u` and the run's process identifier
`p`. -/
theorem c4_sequence_numbers_and_identifiers (u p t : ℕ)
    (trace : List IterInput) :
    (peekLoop u p t 0 [] trace).samples.map (fun s => s.sample) =
      List.range (peekLoop u p t 0 [] trace).samples.length ∧
    ∀ s ∈ (peekLoop u p t 0 [] trace).samples, s.uuid = u ∧ s.pid = p := by
  rw [peekLoop_eq]
  constructor
  · simp only [List.nil_append]
    rw [expectedSamples_map_sample, expectedSamples_length,
      List.range_eq_range']
  · intro s hs
    simp only [List.nil_append] at hs
    exact expectedSamples_mem u p t _ 0 s hs

/-- C9: every stored cpu value is the Metrics Provider's cpu figure of that
sample's own iteration divided by the logical cpu count `t`, and the
divisor is the same constant `t` (read from the system once, before the
loop starts) for every sample of the run. -/
theorem c9_cpu_divided_by_cpu_count (u p t : ℕ) (trace : List IterInput) :
    (peekLoop u p t 0 [] trace).samples.map (fun s => s.cpu) =
      (takenMetrics trace).map (fun m => m.cpu_usage / (t : ℚ)) := by
  rw [peekLoop_eq]
  simpa using expectedSamples_map_cpu u p t _ 0

/-- C2 counterexample: a run in which the loop is stopped by the interrupt
but no kill effect is ever issued, refuting the claim that a spawned
target is killed before the loop ends; the target of this program is
always spawned by it (the attach mode is commented out in the source). -/
theorem c2_counterexample : ¬specC2 := by
  intro h
  obtain ⟨pid, hmem⟩ := h ⟨fun _ _ => some 1, fun s => s⟩ 0 1
    ⟨"p", none, .stdout, .json⟩ [⟨false, 1, some ⟨"n", 1, 2, 3, 4, 5⟩⟩]
    (by decide)
  exact mainModel_no_kill _ 0 1 _ _ pid hmem

/-- C2 amended: when an interrupt is pending before the target has exited,
the loop stops at that iteration's check, but no run of the program ever
issues a kill effect - the source contains no kill call - so the target is
left running even though it was spawned by the tool. -/
theorem c2_interrupt_stops_loop_but_never_kills :
    (∀ (env : OsEnv) (u t : ℕ) (cli : Cli) (trace : List IterInput) (q : ℕ),
      Eff.kill q ∉ (mainModel env u t cli trace).effs) ∧
    (∀ (u p t k : ℕ) (acc : List Samples) (i : IterInput)
      (rest : List IterInput), i.exitArrival = false →
      0 < i.interruptArrivals →
      peekLoop u p t k acc (i :: rest) =
        ⟨acc, .stopped .interruptObserved, []⟩) := by
  constructor
  · exact mainModel_no_kill
  · intro u p t k acc i rest h1 h2
    simp [peekLoop, h1, h2]

/-- C2 witness: the general theorem applied to a concrete interrupted
run. -/
theorem c2_witness :
    Eff.kill 9 ∉ (mainModel ⟨fun _ _ => some 1, fun s => s⟩ 0 1
      ⟨"p", none, .stdout, .json⟩
      [⟨false, 1, some ⟨"n", 1, 2, 3, 4, 5⟩⟩]).effs ∧
    peekLoop 0 1 1 0 [] [⟨false, 1, some ⟨"n", 1, 2, 3, 4, 5⟩⟩] =
      ⟨[], .stopped .interruptObserved, []⟩ :=
  ⟨c2_interrupt_stops_loop_but_never_kills.1 _ 0 1 _ _ 9,
    c2_interrupt_stops_loop_but_never_kills.2 0 1 1 0 []
      ⟨false, 1, some ⟨"n", 1, 2, 3, 4, 5⟩⟩ [] (by decide) (by decide)⟩

/-- C3 counterexample: on a trace whose first iteration has a pending
interrupt and valid metrics, the code's loop collects no sample while the
spec-ordered loop (metrics query and append before the interrupt check)
collects one; the claimed step order is not the code's. -/
theorem c3_counterexample : ¬specC3 := by
  intro h
  have h2 := (h 0 1 1 [⟨false, 1, some ⟨"n", 1, 2, 3, 4, 5⟩⟩]).1
  simp [peekLoop, specLoop] at h2

/-- C3 amended: each iteration checks the exit channel and then - only when
that found nothing - the interrupt channel, both at the top of the
iteration, before the metrics query, the sample append and the sleep; so an
iteration at which a stop signal is observed contributes no sample: when
the loop stops, the samples are exactly one per completed iteration before
the observing one, and the per-iteration effects are query-then-sleep for
completed iterations only. -/
theorem c3_signal_checks_precede_append (u p t : ℕ) (trace : List IterInput)
    (c : Cause) (h : (peekLoop u p t 0 [] trace).outcome = .stopped c) :
    (peekLoop u p t 0 [] trace).samples.length =
      (takenMetrics trace).length ∧
    (peekLoop u p t 0 [] trace).effs = expectedEffs p trace := by
  rw [peekLoop_eq]
  exact ⟨by simp [expectedSamples_length], rfl⟩

/-- C3 witness: a run with one completed iteration and then an observed
exit signal has exactly one sample. -/
theorem c3_witness :
    (peekLoop 0 1 1 0 [] [⟨false, 0, some ⟨"n", 1, 2, 3, 4, 5⟩⟩,
      ⟨true, 0, none⟩]).samples.length =
      (takenMetrics [⟨false, 0, some ⟨"n", 1, 2, 3, 4, 5⟩⟩,
        ⟨true, 0, none⟩]).length :=
  (c3_signal_checks_precede_append 0 1 1
    [⟨false, 0, some ⟨"n", 1, 2, 3, 4, 5⟩⟩, ⟨true, 0, none⟩]
    .exitObserved (by decide)).1

theorem runsOn_spec {i : IterInput} (h : runsOn i = true) :
    ∃ m, i.metrics = some m ∧ sigOf i = .sigSample m := by
  simp only [runsOn, Bool.and_eq_true, Bool.not_eq_true', beq_iff_eq,
    Option.isSome_iff_exists] at h
  obtain ⟨⟨he, hi⟩, m, hm⟩ := h
  exact ⟨m, hm, by simp [sigOf, he, hi, hm]⟩

theorem sigOf_interrupt {i : IterInput} (h1 : i.exitArrival = false)
    (h2 : 0 < i.interruptArrivals) : sigOf i = .sigInterrupt := by
  simp [sigOf, h1, h2]

theorem traceFate_append_runs (pre : List IterInput)
    (h : ∀ j ∈ pre, runsOn j = true) (tr : List IterInput) :
    traceFate (pre ++ tr) = traceFate tr := by
  induction pre with
  | nil => simp
  | cons j pre ih =>
    obtain ⟨m, _, hs⟩ := runsOn_spec (h j (List.mem_cons_self j pre))
    have := ih (fun a ha => h a (List.mem_cons_of_mem j ha))
    simp [traceFate, hs, this]

theorem takenMetrics_append_runs (pre : List IterInput)
    (h : ∀ j ∈ pre, runsOn j = true) (tr : List IterInput) :
    (takenMetrics (pre ++ tr)).length =
      pre.length + (takenMetrics tr).length := by
  induction pre with
  | nil => simp
  | cons j pre ih =>
    obtain ⟨m, _, hs⟩ := runsOn_spec (h j (List.mem_cons_self j pre))
    have := ih (fun a ha => h a (List.mem_cons_of_mem j ha))
    simp [takenMetrics, hs, this]
    omega

/-- C8: (1) installing the Ctrl-C handler is the first effect of every run
of `main` (before the loop can perform anything) and it happens exactly
once; (2) an interrupt pending at the check of the first iteration after
`pre` uneventful iterations is observed at that very check: the loop stops
there by interrupt, with exactly one sample per earlier iteration; (3)
pending interrupts beyond the first at the observing check, and whatever
follows that iteration, do not change the loop's result (idempotent
shutdown). -/
theorem c8_handler_once_latch_idempotent :
    (∀ (env : OsEnv) (u t : ℕ) (cli : Cli) (trace : List IterInput),
      (mainModel env u t cli trace).effs.head? = some .setCtrlCHandler ∧
      (mainModel env u t cli trace).effs.count .setCtrlCHandler = 1) ∧
    (∀ (u p t : ℕ) (pre : List IterInput) (i : IterInput)
      (rest : List IterInput), (∀ j ∈ pre, runsOn j = true) →
      i.exitArrival = false → 0 < i.interruptArrivals →
      (peekLoop u p t 0 [] (pre ++ i :: rest)).outcome =
        .stopped .interruptObserved ∧
      (peekLoop u p t 0 [] (pre ++ i :: rest)).samples.length = pre.length) ∧
    (∀ (u p t k : ℕ) (acc : List Samples) (i : IterInput)
      (rest rest2 : List IterInput) (extra : ℕ),
      i.exitArrival = false → 0 < i.interruptArrivals →
      peekLoop u p t k acc
        (⟨i.exitArrival, i.interruptArrivals + extra, i.metrics⟩ :: rest2) =
        peekLoop u p t k acc (i :: rest)) := by
  refine ⟨?_, ?_, ?_⟩
  · intro env u t cli trace
    exact mainModel_handler_once env u t cli trace
  · intro u p t pre i rest hpre h1 h2
    rw [peekLoop_eq]
    have hsig := sigOf_interrupt h1 h2
    constructor
    · simp [traceFate_append_runs pre hpre, traceFate, hsig]
    · simp only [List.nil_append]
      rw [expectedSamples_length, takenMetrics_append_runs pre hpre]
      simp [takenMetrics, hsig]
  · intro u p t k acc i rest rest2 extra h1 h2
    have h3 : 0 < i.interruptArrivals + extra := by omega
    simp [peekLoop, h1, h2, h3]

/-- C8 witness: the general theorem applied to a run with two uneventful
iterations and then a pending interrupt, and to a check with three pending
interrupts instead of one. -/
theorem c8_witness :
    (peekLoop 0 1 1 0 [] ([⟨false, 0, some ⟨"n", 1, 2, 3, 4, 5⟩⟩,
        ⟨false, 0, some ⟨"n", 1, 2, 3, 4, 5⟩⟩] ++
        ⟨false, 1, some ⟨"n", 1, 2, 3, 4, 5⟩⟩ :: [])).outcome =
      .stopped .interruptObserved ∧
    peekLoop 0 1 1 0 []
        (⟨false, 1 + 2, some ⟨"n", 1, 2, 3, 4, 5⟩⟩ :: []) =
      peekLoop 0 1 1 0 [] (⟨false, 1, some ⟨"n", 1, 2, 3, 4, 5⟩⟩ :: []) :=
  ⟨(c8_handler_once_latch_idempotent.2.1 0 1 1
      [⟨false, 0, some ⟨"n", 1, 2, 3, 4, 5⟩⟩,
        ⟨false, 0, some ⟨"n", 1, 2, 3, 4, 5⟩⟩]
      ⟨false, 1, some ⟨"n", 1, 2, 3, 4, 5⟩⟩ [] (by decide) (by decide)
      (by decide)).1,
    c8_handler_once_latch_idempotent.2.2 0 1 1 0 []
      ⟨false, 1, some ⟨"n", 1, 2, 3, 4, 5⟩⟩ [] [] 2 (by decide) (by decide)⟩

/-- The shape of a run of `main` whose outcome is the propagated run error:
the program string parsed, the spawn succeeded for some pid, and the result
carries the collected samples with no artifact. -/
theorem mainModel_errRun (env : OsEnv) (u t : ℕ) (cli : Cli)
    (trace : List IterInput)
    (h : (mainModel env u t cli trace).outcome = .errRun) :
    ∃ (prog : Program) (rp : RunningProgram),
      Program.new cli.program = .ok prog ∧ Program.run env prog = .ok rp ∧
      mainModel env u t cli trace =
        ⟨.errRun, Eff.setCtrlCHandler :: Eff.spawnThread ::
          Eff.refreshProcesses :: Eff.refreshCpu :: expectedEffs rp.pid trace,
          expectedSamples u rp.pid t 0 (takenMetrics trace), none, none⟩ := by
  cases hP : Program.new cli.program with
  | panicIndexOutOfBounds => simp [mainModel, hP] at h
  | ok prog =>
    cases hR : Program.run env prog with
    | panicked => simp [mainModel, hP, hR] at h
    | ok rp =>
      have hl : peekLoop u rp.pid t 0 [] trace =
          ⟨expectedSamples u rp.pid t 0 (takenMetrics trace),
            traceFate trace, expectedEffs rp.pid trace⟩ := by
        simpa using peekLoop_eq u rp.pid t trace 0 []
      cases hF : traceFate trace with
      | ranOut => simp [mainModel, hP, hR, hl, hF] at h
      | disappeared =>
        exact ⟨prog, rp, rfl, hR, by simp [mainModel, hP, hR, hl, hF]⟩
      | stopped c =>
        cases hO : peekOutput cli.format cli.output
            (cli.path.getD (env.joinCwd ("peek." ++ formatStr cli.format)))
            (expectedSamples u rp.pid t 0 (takenMetrics trace)) with
        | wrote oeffs art => simp [mainModel, hP, hR, hl, hF, hO] at h
        | panickedTodo => simp [mainModel, hP, hR, hl, hF, hO] at h

/-- C1 counterexample: a run whose first iteration collects a sample and
whose second iteration finds the process gone ends as the propagated run
error with no artifact at all, refuting the claim that the collected
samples are present in the final output. -/
theorem c1_counterexample : ¬specC1 := by
  intro h
  have h2 := h ⟨fun _ _ => some 1, fun s => s⟩ 0 1 ⟨"p", none, .stdout, .json⟩
    [⟨false, 0, some ⟨"n", 1, 2, 3, 4, 5⟩⟩, ⟨false, 0, none⟩] (by decide)
  have h3 : (mainModel ⟨fun _ _ => some 1, fun s => s⟩ 0 1
      ⟨"p", none, .stdout, .json⟩
      [⟨false, 0, some ⟨"n", 1, 2, 3, 4, 5⟩⟩, ⟨false, 0, none⟩]).artifact =
      none := rfl
  rw [h3] at h2
  exact Option.noConfusion h2

/-- C1 amended: when the metrics query reports the process missing
mid-loop, `run` returns the error and `main` propagates it before
`peek.output()` is reached: the loop's samples (still sequence-numbered
`0..n-1`) remain only in the in-memory buffer, no artifact is produced,
no file is created and nothing is printed - the collected samples are not
handed to the sink. -/
theorem c1_disappear_skips_output (env : OsEnv) (u t : ℕ) (cli : Cli)
    (trace : List IterInput)
    (h : (mainModel env u t cli trace).outcome = .errRun) :
    (mainModel env u t cli trace).artifact = none ∧
    (∀ pth, Eff.createFile pth ∉ (mainModel env u t cli trace).effs) ∧
    Eff.printStdout ∉ (mainModel env u t cli trace).effs ∧
    (mainModel env u t cli trace).buffered.map (fun s => s.sample) =
      List.range (mainModel env u t cli trace).buffered.length := by
  obtain ⟨prog, rp, hP, hR, hEq⟩ := mainModel_errRun env u t cli trace h
  rw [hEq]
  refine ⟨rfl, ?_, ?_, ?_⟩
  · intro pth hmem
    rcases List.mem_cons.mp hmem with hc | hmem
    · exact Eff.noConfusion hc
    rcases List.mem_cons.mp hmem with hc | hmem
    · exact Eff.noConfusion hc
    rcases List.mem_cons.mp hmem with hc | hmem
    · exact Eff.noConfusion hc
    rcases List.mem_cons.mp hmem with hc | hmem
    · exact Eff.noConfusion hc
    · exact expectedEffs_no_createFile rp.pid pth trace hmem
  · intro hmem
    rcases List.mem_cons.mp hmem with hc | hmem
    · exact Eff.noConfusion hc
    rcases List.mem_cons.mp hmem with hc | hmem
    · exact Eff.noConfusion hc
    rcases List.mem_cons.mp hmem with hc | hmem
    · exact Eff.noConfusion hc
    rcases List.mem_cons.mp hmem with hc | hmem
    · exact Eff.noConfusion hc
    · exact expectedEffs_no_print rp.pid trace hmem
  · rw [expectedSamples_map_sample, expectedSamples_length,
      List.range_eq_range']

/-- C1 witness: the amended theorem at a concrete disappearing run. -/
theorem c1_witness :
    (mainModel ⟨fun _ _ => some 1, fun s => s⟩ 0 1
      ⟨"p", none, .stdout, .json⟩
      [⟨false, 0, some ⟨"n", 1, 2, 3, 4, 5⟩⟩, ⟨false, 0, none⟩]).artifact =
      none :=
  (c1_disappear_skips_output _ 0 1 _ _ (by decide)).1

theorem peekOutput_wrote (fmt : Format) (out : Output) (path : String)
    (samples : List Samples) (oeffs : List Eff) (art : JsonValue)
    (h : peekOutput fmt out path samples = .wrote oeffs art) :
    art = to_json samples := by
  cases fmt with
  | csv => simp [peekOutput] at h
  | json =>
    cases out with
    | file =>
      simp only [peekOutput, OutRes.wrote.injEq] at h
      exact h.2.symm
    | stdout =>
      simp only [peekOutput, OutRes.wrote.injEq] at h
      exact h.2.symm

/-- C5: whenever a run produces an output artifact, that artifact is the
ordered sequence, in sample order, of one record per sample of the run,
and each record consists of exactly the fields run identifier (`uuid`),
sequence number (`sample`), process identifier (`pid`), process name,
cpu percentage, resident memory, virtual memory, disk bytes read and disk
bytes written - in that order. -/
theorem c5_output_record_shape (env : OsEnv) (u t : ℕ) (cli : Cli)
    (trace : List IterInput) (art : JsonValue)
    (h : (mainModel env u t cli trace).artifact = some art) :
    art = .arr ((mainModel env u t cli trace).buffered.map sampleToJson) ∧
    ∀ s : Samples, sampleToJson s =
      .obj [("uuid", .nat s.uuid), ("sample", .nat s.sample),
        ("pid", .nat s.pid), ("name", .str s.name), ("cpu", .rat s.cpu),
        ("mem", .nat s.mem), ("virt_mem", .nat s.virt_mem),
        ("disk_read", .nat s.disk_read), ("disk_write", .nat s.disk_write)] := by
  refine ⟨?_, fun s => rfl⟩
  cases hP : Program.new cli.program with
  | panicIndexOutOfBounds => simp [mainModel, hP] at h
  | ok prog =>
    cases hR : Program.run env prog with
    | panicked => simp [mainModel, hP, hR] at h
    | ok rp =>
      have hl : peekLoop u rp.pid t 0 [] trace =
          ⟨expectedSamples u rp.pid t 0 (takenMetrics trace),
            traceFate trace, expectedEffs rp.pid trace⟩ := by
        simpa using peekLoop_eq u rp.pid t trace 0 []
      cases hF : traceFate trace with
      | ranOut => simp [mainModel, hP, hR, hl, hF] at h
      | disappeared => simp [mainModel, hP, hR, hl, hF] at h
      | stopped c =>
        cases hO : peekOutput cli.format cli.output
            (cli.path.getD (env.joinCwd ("peek." ++ formatStr cli.format)))
            (expectedSamples u rp.pid t 0 (takenMetrics trace)) with
        | panickedTodo => simp [mainModel, hP, hR, hl, hF, hO] at h
        | wrote oeffs art2 =>
          have hb : (mainModel env u t cli trace).buffered =
              expectedSamples u rp.pid t 0 (takenMetrics trace) := by
            simp [mainModel, hP, hR, hl, hF, hO]
          have ha : (mainModel env u t cli trace).artifact = some art2 := by
            simp [mainModel, hP, hR, hl, hF, hO]
          rw [ha] at h
          have h2 := peekOutput_wrote _ _ _ _ _ _ hO
          have hart : art = art2 := (Option.some.inj h).symm
          rw [hb, hart, h2]
          rfl

/-- C5 witness: the theorem at a concrete one-sample run with output to
standard output. -/
theorem c5_witness :
    to_json [mkSample 0 1 1 0 ⟨"n", 1, 2, 3, 4, 5⟩] =
      .arr ((mainModel ⟨fun _ _ => some 1, fun s => s⟩ 0 1
        ⟨"p", none, .stdout, .json⟩
        [⟨false, 0, some ⟨"n", 1, 2, 3, 4, 5⟩⟩,
          ⟨true, 0, none⟩]).buffered.map sampleToJson) :=
  (c5_output_record_shape ⟨fun _ _ => some 1, fun s => s⟩ 0 1
    ⟨"p", none, .stdout, .json⟩
    [⟨false, 0, some ⟨"n", 1, 2, 3, 4, 5⟩⟩, ⟨true, 0, none⟩]
    (to_json [mkSample 0 1 1 0 ⟨"n", 1, 2, 3, 4, 5⟩]) (by rfl)).1

/-- C6: selecting the CSV output format makes the output operation fail
with the not-yet-implemented panic (the `todo` panic of `to_csv`, raised
while producing the data, before the sink is touched), for every sink and
sample buffer; consequently a run with CSV selected produces no artifact
and never creates an output file. -/
theorem c6_csv_fails_without_file :
    (∀ (out : Output) (path : String) (samples : List Samples),
      peekOutput .csv out path samples = .panickedTodo) ∧
    (∀ (env : OsEnv) (u t : ℕ) (cli : Cli) (trace : List IterInput),
      cli.format = .csv →
      (mainModel env u t cli trace).artifact = none ∧
      ∀ pth, Eff.createFile pth ∉ (mainModel env u t cli trace).effs) := by
  constructor
  · intro out path samples
    rfl
  · intro env u t cli trace hFmt
    cases hP : Program.new cli.program with
    | panicIndexOutOfBounds =>
      refine ⟨by simp [mainModel, hP], ?_⟩
      intro pth hmem
      have he : (mainModel env u t cli trace).effs = [.setCtrlCHandler] := by
        simp [mainModel, hP]
      rw [he] at hmem
      rcases List.mem_singleton.mp hmem with hc
      exact Eff.noConfusion hc
    | ok prog =>
      cases hR : Program.run env prog with
      | panicked =>
        refine ⟨by simp [mainModel, hP, hR], ?_⟩
        intro pth hmem
        have he : (mainModel env u t cli trace).effs =
            [.setCtrlCHandler, .spawnThread] := by
          simp [mainModel, hP, hR]
        rw [he] at hmem
        rcases List.mem_cons.mp hmem with hc | hmem
        · exact Eff.noConfusion hc
        rcases List.mem_singleton.mp hmem with hc
        exact Eff.noConfusion hc
      | ok rp =>
        have hl : peekLoop u rp.pid t 0 [] trace =
            ⟨expectedSamples u rp.pid t 0 (takenMetrics trace),
              traceFate trace, expectedEffs rp.pid trace⟩ := by
          simpa using peekLoop_eq u rp.pid t trace 0 []
        have heffs : ∀ hF2 : (mainModel env u t cli trace).effs =
            Eff.setCtrlCHandler :: Eff.spawnThread :: Eff.refreshProcesses ::
              Eff.refreshCpu :: expectedEffs rp.pid trace,
            ∀ pth, Eff.createFile pth ∉ (mainModel env u t cli trace).effs := by
          intro hF2 pth hmem
          rw [hF2] at hmem
          rcases List.mem_cons.mp hmem with hc | hmem
          · exact Eff.noConfusion hc
          rcases List.mem_cons.mp hmem with hc | hmem
          · exact Eff.noConfusion hc
          rcases List.mem_cons.mp hmem with hc | hmem
          · exact Eff.noConfusion hc
          rcases List.mem_cons.mp hmem with hc | hmem
          · exact Eff.noConfusion hc
          · exact expectedEffs_no_createFile rp.pid pth trace hmem
        cases hF : traceFate trace with
        | ranOut =>
          exact ⟨by simp [mainModel, hP, hR, hl, hF],
            heffs (by simp [mainModel, hP, hR, hl, hF])⟩
        | disappeared =>
          exact ⟨by simp [mainModel, hP, hR, hl, hF],
            heffs (by simp [mainModel, hP, hR, hl, hF])⟩
        | stopped c =>
          exact ⟨by simp [mainModel, hP, hR, hl, hF, hFmt, peekOutput],
            heffs (by simp [mainModel, hP, hR, hl, hF, hFmt, peekOutput])⟩

/-- C6 witness: a concrete CSV run - interrupted after one check - has no
artifact. -/
theorem c6_witness :
    (mainModel ⟨fun _ _ => some 1, fun s => s⟩ 0 1
      ⟨"p", none, .file, .csv⟩
      [⟨false, 1, some ⟨"n", 1, 2, 3, 4, 5⟩⟩]).artifact = none :=
  (c6_csv_fails_without_file.2 ⟨fun _ _ => some 1, fun s => s⟩ 0 1
    ⟨"p", none, .file, .csv⟩ [⟨false, 1, some ⟨"n", 1, 2, 3, 4, 5⟩⟩] rfl).1

/-- C7 counterexample: with an operating system on which both spawn
attempts fail, `Program::run` ends in the panic (the spawned thread's
`unwrap` fails, so the pid `recv().unwrap()` fails), not in a reported
`SpawnError` value - the source has no error return on this path. -/
theorem c7_counterexample : ¬specC7 := by
  intro h
  exact h ⟨fun _ _ => none, fun s => s⟩ ⟨"x", []⟩ rfl rfl rfl

/-- C7 amended: spawning resolves the executable in two steps - first the
bare command (search path), then the command joined onto the current
working directory - and when both attempts fail the program aborts by
panic before the sampling loop starts: the run's outcome is the spawn
panic, its only effects are the handler installation and the thread spawn
(no loop effect), and no sample is collected. -/
theorem c7_two_step_resolution_then_abort :
    (∀ (env : OsEnv) (p : Program) (pid : ℕ),
      env.spawn p.command p.args = some pid →
      Program.run env p = .ok ⟨pid⟩) ∧
    (∀ (env : OsEnv) (p : Program) (pid : ℕ),
      env.spawn p.command p.args = none →
      env.spawn (env.joinCwd p.command) p.args = some pid →
      Program.run env p = .ok ⟨pid⟩) ∧
    (∀ (env : OsEnv) (p : Program),
      env.spawn p.command p.args = none →
      env.spawn (env.joinCwd p.command) p.args = none →
      Program.run env p = .panicked) ∧
    (∀ (env : OsEnv) (u t : ℕ) (cli : Cli) (trace : List IterInput)
      (prog : Program), Program.new cli.program = .ok prog →
      Program.run env prog = .panicked →
      (mainModel env u t cli trace).outcome = .panickedSpawn ∧
      (mainModel env u t cli trace).effs = [.setCtrlCHandler, .spawnThread] ∧
      (mainModel env u t cli trace).buffered = []) := by
  refine ⟨?_, ?_, ?_, ?_⟩
  · intro env p pid h
    simp [Program.run, h]
  · intro env p pid h1 h2
    simp [Program.run, h1, h2]
  · intro env p h1 h2
    simp [Program.run, h1, h2]
  · intro env u t cli trace prog hP hR
    refine ⟨?_, ?_, ?_⟩ <;> simp [mainModel, hP, hR]

/-- C7 witness: the amended theorem at a concrete environment on which
both attempts fail. -/
theorem c7_witness :
    Program.run ⟨fun _ _ => none, fun s => s⟩ ⟨"x", []⟩ = .panicked ∧
    (mainModel ⟨fun _ _ => none, fun s => s⟩ 0 1 ⟨"x", none, .stdout, .json⟩
      []).outcome = .panickedSpawn :=
  ⟨c7_two_step_resolution_then_abort.2.2.1 ⟨fun _ _ => none, fun s => s⟩
      ⟨"x", []⟩ rfl rfl,
    (c7_two_step_resolution_then_abort.2.2.2 ⟨fun _ _ => none, fun s => s⟩
      0 1 ⟨"x", none, .stdout, .json⟩ [] ⟨"x", []⟩ (by decide) rfl).1⟩

/-- C10: `Program::new` splits the program string on whitespace and
unconditionally indexes the first token, so for every program string that
is empty or consists only of whitespace (Unicode White_Space, Rust's
`char::is_whitespace`) it panics (index out of bounds) instead of
returning a configuration error; and whenever the string has at least one
non-whitespace character, the panic is unreachable and a `Program` is
returned. -/
theorem c10_empty_program_panics (s : String) :
    ((∀ c ∈ s.data, isRustWhitespace c = true) →
      Program.new s = .panicIndexOutOfBounds) ∧
    ((∃ c ∈ s.data, ¬isRustWhitespace c = true) →
      ∃ pr, Program.new s = .ok pr) := by
  constructor
  · intro h
    have h2 := splitWSGo_nil_of_ws s.data h
    simp [Program.new, splitWS, h2]
  · intro h
    have hne := splitWS_ne_nil s.data h
    cases hsp : splitWS s.data with
    | nil => exact absurd hsp hne
    | cons w ws =>
      exact ⟨⟨String.mk w, ws.map String.mk⟩, by simp [Program.new, hsp]⟩

/-- C10 witness: the theorem at the space-only string, at a string of one
vertical tab (U+000B, whitespace for Rust but not for Lean's own
predicate) and at a two-token command line. -/
theorem c10_witness :
    Program.new (" ") = .panicIndexOutOfBounds ∧
    Program.new (String.mk [Char.ofNat 0x0B]) = .panicIndexOutOfBounds ∧
    ∃ pr, Program.new ("ls -a") = .ok pr :=
  ⟨(c10_empty_program_panics (" ")).1 (by decide),
    (c10_empty_program_panics (String.mk [Char.ofNat 0x0B])).1 (by decide),
    (c10_empty_program_panics ("ls -a")).2 (by decide)⟩

end Peek
